import Mathlib

/- Shallow embedding of the rusprofile-parser service (src/app/parser.py,
src/app/main.py, src/app/database.py, src/app/models.py).  Strings are Lean
Strings handled through their character lists; Python truthiness is made
explicit; dynamic per-attribute access on the Company model is rendered as a
finite map from the closed set of Company field names to optional values. -/

set_option maxRecDepth 8192
set_option maxHeartbeats 1000000

/-- Python str.lower restricted to the alphabets the source handles: ASCII
letters and the Cyrillic range U+0410 to U+042F plus Ё. -/
def py_lower_char (c : Char) : Char :=
  if 'A' ≤ c ∧ c ≤ 'Z' then Char.ofNat (c.toNat + 32)
  else if 'А' ≤ c ∧ c ≤ 'Я' then Char.ofNat (c.toNat + 32)
  else if c = 'Ё' then 'ё' else c

/-- Python str.lower on a whole string (see py_lower_char). -/
def py_lower (s : String) : String := ⟨s.data.map py_lower_char⟩

/-- Python whitespace class (regex backslash-s / str.strip default): space,
tab, newline, carriage return, vertical tab, form feed, no-break space. -/
def is_py_space (c : Char) : Bool :=
  c == ' ' || c == '\t' || c == '\n' || c == '\r' ||
  c == Char.ofNat 11 || c == Char.ofNat 12 || c == Char.ofNat 160

/-- Python str.strip(): drop whitespace from both ends. -/
def py_strip (s : String) : String :=
  ⟨((s.data.dropWhile is_py_space).reverse.dropWhile is_py_space).reverse⟩

/-- Python str.isdigit over the decimal digits: nonempty and every character
a digit (the service only ever feeds identifier strings to it). -/
def py_isdigit (s : String) : Bool :=
  !s.data.isEmpty && s.data.all Char.isDigit

/-- Decimal value of a digit list, as computed by Python int() on a digit
string. -/
def digits_to_nat (cs : List Char) : Nat :=
  cs.foldl (fun acc c => acc * 10 + (c.toNat - '0'.toNat)) 0

/-- Python int() applied to a string str.isdigit accepted. -/
def py_int_of_digits (s : String) : Nat := digits_to_nat s.data

/-- Whether needle occurs as a contiguous run inside hay (Python `in`). -/
def containsRun : List Char → List Char → Bool
  | needle, [] => needle.isEmpty
  | needle, c :: t => needle.isPrefixOf (c :: t) || containsRun needle t

/-- Python `needle in hay` on strings. -/
def str_contains (hay needle : String) : Bool := containsRun needle.data hay.data

/-- parser.py _clean_inn: re.sub removes every bang and tilde marker
character, then str.strip trims surrounding whitespace. -/
def clean_inn (raw : String) : String :=
  py_strip ⟨raw.data.filter (fun c => !(c == '!') && !(c == '~'))⟩

/-- Python `a or b` on optional strings, where None and the empty string are
falsy. -/
def pyOrStr (a b : Option String) : Option String :=
  match a with
  | some s => if s = "" then b else some s
  | none => b

/-- One founder entry as built by parser.py _parse_founders. -/
structure Founder where
  name : Option String := none
  ftype : Option String := none
  inn : Option String := none
  share : Option String := none
  deriving DecidableEq

/-- One sections-overview entry as built by parser.py _parse_sections: the
count and sum keys are present only when set. -/
structure SectionEntry where
  exists_ : Bool
  count : Option Nat
  sum : Option String
  deriving DecidableEq

/-- Values stored in Company attributes and extraction-result dicts. -/
inductive Val where
  | vstr (s : String)
  | vint (n : Int)
  | vbool (b : Bool)
  | vfounders (l : List Founder)
  | vsections (l : List (String × SectionEntry))
  deriving DecidableEq

/-- Python truthiness of a stored value: empty string, zero, False and empty
collections are falsy. -/
def Val.truthy : Val → Bool
  | .vstr s => !(s == "")
  | .vint n => !(n == 0)
  | .vbool b => b
  | .vfounders l => !l.isEmpty
  | .vsections l => !l.isEmpty

/-- The closed set of attribute names of the Company model (models.py). -/
inductive FieldName where
  | inn | kpp | ogrn | name | full_name | status | address | region
  | ceo_name | ceo_title | okved_code | okved_name | okpo | oktmo
  | okato | okfs | okogu | capital | registration_date | url
  | okopf_code | okopf_name | ogrn_date
  | ceo_inn | ceo_start_date | ceo_other_companies
  | msp_status | msp_date
  | tax_authority | tax_authority_date | address_unreliable
  | revenue | revenue_year | revenue_change
  | profit | profit_change
  | financial_stability | solvency | efficiency
  | founders
  | reliability_rating | reliability_positive | reliability_warning
  | reliability_negative
  | enforcement_count | enforcement_sum
  | taxes_sum | taxes_year | contributions_sum
  | sections
  | cached | cached_at
  deriving DecidableEq

/-- A Company instance, viewed through getattr: each attribute holds an
optional value (None rendered as none). -/
def Company := FieldName → Option Val

/-- An extraction-result dict keyed by Company attribute names; absent keys
and keys holding None are both rendered as none (parser.py _apply_extra
treats them identically). -/
def Extra := FieldName → Option Val

/-- The empty extraction-result dict. -/
def empty_extra : Extra := fun _ => none

/-- parser.py _apply_extra: for each key of the dict whose value is not None,
set the attribute when the current value is None, or when the incoming value
is truthy and the key is not okpo. -/
def apply_extra (company : Company) (extra : Extra) : Company := fun key =>
  match extra key with
  | none => company key
  | some value =>
    match company key with
    | none => some value
    | some current =>
      if value.truthy && !(key == FieldName.okpo) then some value else some current

/-- parser.py BASE_URL. -/
def BASE_URL : String := "https://www.rusprofile.ru"

/-- One raw AJAX search-result dict, with the keys the source reads.  Absent
keys are none; values are the upstream strings (inactive is the numeric
flag). -/
structure Item where
  inn : Option String := none
  ogrn : Option String := none
  raw_ogrn : Option String := none
  raw_name : Option String := none
  name : Option String := none
  inactive : Option Int := none
  authorized_capital : Option String := none
  okpo : Option String := none
  address : Option String := none
  region : Option String := none
  ceo_name : Option String := none
  ceo_type : Option String := none
  main_okved_id : Option String := none
  okved_descr : Option String := none
  reg_date : Option String := none
  url : Option String := none
  deriving DecidableEq

/-- parser.py _parse_ajax_item.  The float branch of the capital formatting
(f-string on float(raw)) is abstracted by the fmt parameter; every other
field follows the source line by line. -/
def parse_ajax_item (fmt : String → String) (item : Item) : Company := fun f =>
  match f with
  | FieldName.inn => some (Val.vstr (clean_inn (item.inn.getD "")))
  | FieldName.ogrn => (pyOrStr item.ogrn item.raw_ogrn).map Val.vstr
  | FieldName.name => (pyOrStr item.raw_name item.name).map Val.vstr
  | FieldName.status =>
      some (Val.vstr (if item.inactive.getD 0 ≠ 0 then "Ликвидирована" else "Действующая"))
  | FieldName.address => item.address.map Val.vstr
  | FieldName.region => item.region.map Val.vstr
  | FieldName.ceo_name => item.ceo_name.map Val.vstr
  | FieldName.ceo_title => item.ceo_type.map Val.vstr
  | FieldName.okved_code => item.main_okved_id.map Val.vstr
  | FieldName.okved_name => item.okved_descr.map Val.vstr
  | FieldName.okpo => (pyOrStr item.okpo none).map Val.vstr
  | FieldName.capital =>
      (pyOrStr item.authorized_capital none).map (fun s => Val.vstr (fmt s))
  | FieldName.registration_date => item.reg_date.map Val.vstr
  | FieldName.url => (pyOrStr item.url none).map (fun u => Val.vstr (BASE_URL ++ u))
  | FieldName.cached => some (Val.vbool false)
  | _ => none

/-- get_company_by_inn candidate loop: first item whose cleaned inn equals
the query. -/
def findTargetByInn (results : List Item) (inn : String) : Option Item :=
  results.find? (fun item => clean_inn (item.inn.getD "") == inn)

/-- get_company_by_ogrn candidate loop: first item whose raw ogrn or
raw_ogrn field equals the query (the source applies no cleaning here). -/
def findTargetByOgrn (results : List Item) (ogrn : String) : Option Item :=
  results.find? (fun item => item.ogrn == some ogrn || item.raw_ogrn == some ogrn)

/-- Modelled from the spec: the Candidate Matcher the spec describes for the
registration-number pipeline, which compares the cleaned identifier field
against the target.  Kept for comparison with findTargetByOgrn. -/
def findTargetByOgrnSpec (results : List Item) (ogrn : String) : Option Item :=
  results.find? (fun item => clean_inn (item.ogrn.getD "") == ogrn)

/-- parser.py get_company_by_inn after the network steps: match the
candidate, build the base record, and when the candidate carries a url apply
the detail-page extraction result extra. -/
def get_company_by_inn (fmt : String → String) (results : List Item)
    (inn : String) (extra : Extra) : Option Company :=
  match findTargetByInn results inn with
  | none => none
  | some target =>
    match pyOrStr target.url none with
    | some _ => some (apply_extra (parse_ajax_item fmt target) extra)
    | none => some (parse_ajax_item fmt target)

/-- Every dict key assigned by any extraction rule of parser.py
(_parse_basic_fields, _parse_ceo, _parse_msp, _parse_tax_authority,
_parse_finances, _parse_founders, _parse_enforcement, _parse_taxes,
_parse_reliability, _parse_sections, _parse_address_unreliable), transcribed
from each `extra[...] = ...` assignment. -/
def extraction_keys : List FieldName :=
  [FieldName.kpp, FieldName.okpo, FieldName.okato, FieldName.oktmo,
   FieldName.okfs, FieldName.okogu, FieldName.full_name,
   FieldName.okopf_code, FieldName.okopf_name, FieldName.ogrn_date,
   FieldName.ceo_inn, FieldName.ceo_start_date, FieldName.ceo_other_companies,
   FieldName.msp_status, FieldName.msp_date,
   FieldName.tax_authority, FieldName.tax_authority_date,
   FieldName.revenue_year, FieldName.revenue, FieldName.revenue_change,
   FieldName.profit, FieldName.profit_change,
   FieldName.financial_stability, FieldName.solvency, FieldName.efficiency,
   FieldName.founders,
   FieldName.enforcement_count, FieldName.enforcement_sum,
   FieldName.taxes_sum, FieldName.contributions_sum, FieldName.taxes_year,
   FieldName.reliability_rating, FieldName.sections,
   FieldName.address_unreliable]

/-- Python dict.update: keys of the second dict override the first. -/
def dict_update (base new : Extra) : Extra := fun f =>
  match new f with
  | some v => some v
  | none => base f

/-- Outcome of one extraction rule on a fetched document: ok with its field
dict, or error when the rule raised internally. -/
def except_to_opt {ε α : Type} : Except ε α → Option α
  | Except.ok a => some a
  | Except.error _ => none

/-- parse_company_page rule loop: each rule runs inside try/except; a raising
rule is skipped (logged in the source) and the loop continues with the
accumulated dict. -/
def run_rules {Doc : Type} (rules : List (Doc → Except String Extra))
    (doc : Doc) : Extra :=
  rules.foldl (fun acc rule =>
    match rule doc with
    | Except.ok fields => dict_update acc fields
    | Except.error _ => acc) empty_extra

/-- Left fold of dict.update over a list of field dicts. -/
def union_all (ms : List Extra) : Extra := ms.foldl dict_update empty_extra

/-- One section tile of the detail page as _parse_sections reads it: the
whole tile text (get_text) and the stripped texts of its links, in document
order. -/
structure Tile where
  text : String
  linkTexts : List String
  deriving DecidableEq

/-- parser.py _parse_sections no_data_markers. -/
def no_data_markers : List String := ["не найден", "отсутствуют", "не обнаружен"]

/-- Whether the lowercased tile text contains one of the no-data marker
phrases. -/
def marker_found (t : Tile) : Bool :=
  no_data_markers.any (fun m => str_contains (py_lower t.text) m)

/-- Lazy scan for the end of the capture group of the amount pattern: the
least index past three letters spelling the currency word (case-insensitive)
with at least one character before them and no newline so far. -/
def cap_scan : List Char → Option Char → Option Char → Nat → Option Nat
  | [], _, _, _ => none
  | c :: rest, p2, p1, k =>
    if c == '\n' then none
    else
      let lc := py_lower_char c
      if p2 == some 'р' && p1 == some 'у' && lc == 'б' && decide (3 ≤ k) then
        some (k + 1)
      else cap_scan rest p1 (some lc) (k + 1)

/-- Attempt the capture group of re.search("на сумму\\s+(.+?руб\\.?)", ...)
on the text following the whitespace run: minimal capture ending in the
currency word, an optional trailing dot, then group(1).strip(). -/
def cap_match (body : List Char) : Option String :=
  match cap_scan body none none 0 with
  | none => none
  | some e =>
    let e2 := if (body.drop e).head? == some '.' then e + 1 else e
    some (py_strip ⟨body.take e2⟩)

/-- Backtracking over the greedy whitespace run: try the run length w, then
w - 1, down to 1, as the regex engine does when the lazy capture fails. -/
def try_ws_then_cap (after : List Char) : Nat → Option String
  | 0 => none
  | Nat.succ m =>
    match cap_match (after.drop (m + 1)) with
    | some cap => some cap
    | none => try_ws_then_cap after m

/-- Attempt the amount pattern anchored at the start of cs: the literal
"на сумму" (case-insensitive), at least one whitespace character, then the
lazy capture. -/
def sum_match_at (cs : List Char) : Option String :=
  let lit := "на сумму".data
  if (cs.take lit.length).map py_lower_char == lit then
    let after := cs.drop lit.length
    try_ws_then_cap after ((after.takeWhile is_py_space).length)
  else none

/-- Leftmost application of the amount pattern, as re.search scans start
positions left to right. -/
def search_sum_list : List Char → Option String
  | [] => none
  | c :: rest =>
    match sum_match_at (c :: rest) with
    | some cap => some cap
    | none => search_sum_list rest

/-- re.search("на сумму\\s+(.+?руб\\.?)", text, re.IGNORECASE), returning
group(1).strip() when the pattern matches. -/
def search_sum (text : String) : Option String := search_sum_list text.data

/-- parser.py _parse_sections body for one found tile: a no-data marker
yields exists False and no other keys; otherwise exists True, the count from
the first link whose text is a bare integer, and the sum from the amount
pattern. -/
def parse_section_tile (t : Tile) : SectionEntry :=
  if marker_found t then
    { exists_ := false, count := none, sum := none }
  else
    { exists_ := true
      count := (t.linkTexts.find? py_isdigit).map py_int_of_digits
      sum := search_sum t.text }

/-- parser.py _parse_sections section_tiles table: css class to section key,
in source order. -/
def section_tiles : List (String × String) :=
  [("arbitr-tile", "arbitration"), ("trademarks-tile", "trademarks"),
   ("gz-tile", "gov_contracts"), ("inspections-tile", "inspections"),
   ("branches-tile", "branches"), ("licenses-tile", "licenses"),
   ("leasing-tile", "leasing"), ("pledge-tile", "pledges"),
   ("facts-tile", "fedresurs"), ("sou-tile", "courts")]

/-- parser.py _parse_sections tile loop: lookup abstracts soup.find by css
class; each found tile contributes one entry, in source order. -/
def sections_fold (lookup : String → Option Tile) : List (String × SectionEntry) :=
  section_tiles.foldl (fun acc p =>
    match lookup p.1 with
    | none => acc
    | some t => acc ++ [(p.2, parse_section_tile t)]) []

/-- parser.py _parse_sections: the mapping is returned only when at least one
tile was found (the source returns the empty dict otherwise). -/
def parse_sections (lookup : String → Option Tile) :
    Option (List (String × SectionEntry)) :=
  if (sections_fold lookup).isEmpty then none else some (sections_fold lookup)

/-- parser.py _throttle under ideal timing: a pass that reads the recorded
last-request time last at clock value now computes wait, sleeps exactly wait
seconds when positive, and the value returned is both the permitted start
time and the newly recorded last-request time. -/
def throttle_pass (last now delay : ℚ) : ℚ :=
  let wait := delay - (now - last)
  if 0 < wait then now + wait else now

/-- Interleaving of two concurrent throttle callers in which both read the
shared last-request time before either records (both suspend at the sleep):
each pass computes its permitted time from the same stale value. -/
def concurrent_permits (last now1 now2 delay : ℚ) : ℚ × ℚ :=
  (throttle_pass last now1 delay, throttle_pass last now2 delay)

/-- One row of the organizations table as read back by database.py, with its
updated_at timestamp (seconds on an abstract integer clock). -/
structure Row where
  stored : FieldName → Option Val
  updated_at : Int

/-- database.py _row_to_company: the stored columns with cached True and
cached_at the row's update time. -/
def row_to_company (row : Row) : Company := fun f =>
  match f with
  | FieldName.cached => some (Val.vbool true)
  | FieldName.cached_at => some (Val.vint row.updated_at)
  | _ => row.stored f

/-- database.py get_cached: miss when the pool is down, the row is absent,
or now minus updated_at strictly exceeds the TTL; otherwise the row converted
with cached True.  db abstracts the inn-keyed table. -/
def get_cached (pool : Bool) (db : String → Option Row) (now ttl : Int)
    (inn : String) : Option Company :=
  if !pool then none
  else
    match db inn with
    | none => none
    | some row =>
      if ttl < now - row.updated_at then none else some (row_to_company row)

/-- database.py get_cached_by_ogrn: identical shape over the ogrn-keyed
lookup. -/
def get_cached_by_ogrn (pool : Bool) (dbO : String → Option Row)
    (now ttl : Int) (ogrn : String) : Option Company :=
  if !pool then none
  else
    match dbO ogrn with
    | none => none
    | some row =>
      if ttl < now - row.updated_at then none else some (row_to_company row)

/-- HTTP outcome of an endpoint call: 400, 404, or 200 with a record. -/
inductive ApiOutcome where
  | badRequest
  | notFound
  | ok (c : Company)

/-- Observable effects of one endpoint call: the response, whether the cache
was read, whether the upstream pipeline ran, and what was written back. -/
structure ApiEffects where
  outcome : ApiOutcome
  cacheRead : Bool
  upstream : Bool
  saved : Option Company

/-- main.py company_by_inn validation guard: inn.isdigit() and len in
(10, 12). -/
def valid_inn_format (s : String) : Bool :=
  py_isdigit s && (s.length == 10 || s.length == 12)

/-- main.py company_by_ogrn validation guard: ogrn.isdigit() and len in
(13, 15). -/
def valid_ogrn_format (s : String) : Bool :=
  py_isdigit s && (s.length == 13 || s.length == 15)

/-- main.py company_by_inn after validation: read the cache unless force,
return a hit directly, otherwise run the pipeline, 404 on None, and save the
fetched record (save errors are swallowed in the source). -/
def inn_route_body (pool : Bool) (db : String → Option Row) (now ttl : Int)
    (pipe : String → Option Company) (inn : String) (force : Bool) : ApiEffects :=
  match (if force then none else get_cached pool db now ttl inn) with
  | some c => { outcome := ApiOutcome.ok c, cacheRead := !force, upstream := false, saved := none }
  | none =>
    match pipe inn with
    | none => { outcome := ApiOutcome.notFound, cacheRead := !force, upstream := true, saved := none }
    | some c => { outcome := ApiOutcome.ok c, cacheRead := !force, upstream := true, saved := some c }

/-- main.py company_by_inn: 400 before any cache or upstream access when the
identifier fails validation. -/
def company_by_inn_route (pool : Bool) (db : String → Option Row)
    (now ttl : Int) (pipe : String → Option Company) (inn : String)
    (force : Bool) : ApiEffects :=
  if valid_inn_format inn then inn_route_body pool db now ttl pipe inn force
  else { outcome := ApiOutcome.badRequest, cacheRead := false, upstream := false, saved := none }

/-- main.py company_by_ogrn after validation (same shape over the ogrn-keyed
cache). -/
def ogrn_route_body (pool : Bool) (dbO : String → Option Row) (now ttl : Int)
    (pipeO : String → Option Company) (ogrn : String) (force : Bool) : ApiEffects :=
  match (if force then none else get_cached_by_ogrn pool dbO now ttl ogrn) with
  | some c => { outcome := ApiOutcome.ok c, cacheRead := !force, upstream := false, saved := none }
  | none =>
    match pipeO ogrn with
    | none => { outcome := ApiOutcome.notFound, cacheRead := !force, upstream := true, saved := none }
    | some c => { outcome := ApiOutcome.ok c, cacheRead := !force, upstream := true, saved := some c }

/-- main.py company_by_ogrn: 400 before any cache or upstream access when the
identifier fails validation. -/
def company_by_ogrn_route (pool : Bool) (dbO : String → Option Row)
    (now ttl : Int) (pipeO : String → Option Company) (ogrn : String)
    (force : Bool) : ApiEffects :=
  if valid_ogrn_format ogrn then ogrn_route_body pool dbO now ttl pipeO ogrn force
  else { outcome := ApiOutcome.badRequest, cacheRead := false, upstream := false, saved := none }

/-- Concrete record with a populated region, for evaluating the merge. -/
def company_moscow : Company := fun f =>
  match f with
  | FieldName.region => some (Val.vstr "Moscow")
  | _ => none

/-- Concrete record with okpo already set from the summary source. -/
def company_okpo : Company := fun f =>
  match f with
  | FieldName.okpo => some (Val.vstr "11111111")
  | _ => none

/-- Concrete extraction result carrying a non-empty okpo value. -/
def extra_okpo : Extra := fun f =>
  match f with
  | FieldName.okpo => some (Val.vstr "22222222")
  | _ => none

/-- Candidate whose ogrn field carries an upstream highlight marker. -/
def item_bang : Item := { ogrn := some "!1234567890123" }

/-- Candidate with a matching inn and a relative url. -/
def item_seven : Item := { inn := some "7700000000", url := some "/id/123" }

/-- Rule that extracts one field, for evaluating the rule loop. -/
def rule_ok_example : Unit → Except String Extra := fun _ =>
  Except.ok (fun f => if f == FieldName.kpp then some (Val.vstr "773601001") else none)

/-- Rule that raises internally, for evaluating the rule loop. -/
def rule_fail_example : Unit → Except String Extra := fun _ =>
  Except.error "unexpected markup"

/-- Empty inn-keyed table. -/
def db_empty : String → Option Row := fun _ => none

/-- Pipeline that finds nothing upstream. -/
def pipe_empty : String → Option Company := fun _ => none

/-- Concrete cached row updated at clock 0. -/
def row_example : Row := { stored := fun _ => none, updated_at := 0 }

/-- Table holding row_example under one inn. -/
def db_example : String → Option Row := fun s =>
  if s = "1234567890" then some row_example else none

/-- Pipeline returning a fixed record for one inn. -/
def pipe_example : String → Option Company := fun s =>
  if s = "1234567890" then some company_moscow else none

/-- Tile whose text carries a no-data marker phrase. -/
def tile_no_data : Tile := { text := "Данные не найдены", linkTexts := [] }

/-- Tile with data, a bare-integer link and an amount phrase. -/
def tile_with_data : Tile :=
  { text := "Арбитражные дела 12 на сумму 5 000 руб.", linkTexts := ["12"] }

example : search_sum "Арбитражные дела 12 на сумму 5 000 руб." = some "5 000 руб." := by decide
example : search_sum "ничего тут нет" = none := by decide
example : search_sum "На сумму  руб" = some "руб" := by decide
example : clean_inn " !1234567890~ " = "1234567890" := by decide
example : py_int_of_digits "0012" = 12 := by decide
example : marker_found tile_no_data = true := by decide
example : marker_found tile_with_data = false := by decide
example : py_isdigit "1234567890" = true ∧ py_isdigit "12a4" = false ∧ py_isdigit "" = false := by decide
example : search_sum "на сумму руб" = none := by decide
example : search_sum "на сумму \n 500 руб. еще" = some "500 руб." := by decide
example : search_sum "на сумму x\nруб" = none := by decide
example : search_sum "на сумму 1 руб 2 руб." = some "1 руб" := by decide
example : search_sum "НА СУММУ 7 РУБ." = some "7 РУБ." := by decide
example : search_sum "на summa руб" = none := by decide

/-- C1: fill-forward merge law of _apply_extra: a populated (non-None,
truthy) field is left unchanged when the incoming value is None or empty,
and a field currently None takes any incoming non-None value. -/
theorem merge_fill_forward (c : Company) (e : Extra) (f : FieldName) :
    (∀ v, c f = some v → v.truthy = true →
      (e f = none ∨ ∃ w, e f = some w ∧ w.truthy = false) →
      apply_extra c e f = some v)
  ∧ (c f = none → ∀ w, e f = some w → apply_extra c e f = some w) := by
  constructor
  · intro v hc hv he
    rcases he with he | ⟨w, hw, hwt⟩
    · simp [apply_extra, he, hc]
    · simp [apply_extra, hw, hc, hwt]
  · intro hc w hw
    simp [apply_extra, hw, hc]

/-- C1 witness: a record whose region is "Moscow" merged with an extraction
result whose region is absent keeps "Moscow". -/
theorem merge_fill_forward_w :
    apply_extra company_moscow empty_extra FieldName.region = some (Val.vstr "Moscow") :=
  (merge_fill_forward company_moscow empty_extra FieldName.region).1
    (Val.vstr "Moscow") rfl rfl (Or.inl rfl)

/-- C2: pinned-field law: once okpo is non-None, _apply_extra never changes
it, whatever the incoming okpo value. -/
theorem okpo_pinned (c : Company) (e : Extra) (h : c FieldName.okpo ≠ none) :
    apply_extra c e FieldName.okpo = c FieldName.okpo := by
  rcases hc : c FieldName.okpo with _ | v
  · exact absurd hc h
  · cases he : e FieldName.okpo with
    | none => simp [apply_extra, he, hc]
    | some w => simp [apply_extra, he, hc]

/-- C2 witness: a record whose okpo is set keeps it against a non-empty
incoming okpo. -/
theorem okpo_pinned_w :
    apply_extra company_okpo extra_okpo FieldName.okpo = company_okpo FieldName.okpo :=
  okpo_pinned company_okpo extra_okpo (by simp [company_okpo])

/-- C5: merge idempotence: applying _apply_extra twice with the same
extraction result equals applying it once. -/
theorem merge_idempotent (c : Company) (e : Extra) :
    apply_extra (apply_extra c e) e = apply_extra c e := by
  funext f
  cases he : e f with
  | none => simp [apply_extra, he]
  | some v =>
    cases hc : c f with
    | none => simp [apply_extra, he, hc]
    | some cur =>
      cases htv : v.truthy && !(f == FieldName.okpo) <;>
        simp [apply_extra, he, hc, htv]

/-- List.find? returns the first entry satisfying the predicate: it holds on
the result and fails on everything before it. -/
theorem find_some_split {α : Type} (p : α → Bool) :
    ∀ (l : List α) (a : α), l.find? p = some a →
      p a = true ∧ ∃ l1 l2, l = l1 ++ a :: l2 ∧ ∀ x ∈ l1, p x = false := by
  intro l
  induction l with
  | nil => intro a h; simp at h
  | cons b t ih =>
    intro a h
    cases hb : p b with
    | true =>
      rw [List.find?_cons_of_pos _ hb] at h
      injection h with h'
      subst h'
      exact ⟨hb, [], t, rfl, by simp⟩
    | false =>
      rw [List.find?_cons_of_neg _ (by simp [hb])] at h
      obtain ⟨hpa, l1, l2, hsplit, hall⟩ := ih a h
      refine ⟨hpa, b :: l1, l2, by rw [hsplit]; rfl, ?_⟩
      intro x hx
      rcases List.mem_cons.mp hx with rfl | hx'
      · exact hb
      · exact hall x hx'

/-- C3 counterexample: a candidate list whose single entry's cleaned
registration number equals the target, yet get_company_by_ogrn's matcher
returns not-found, because the source compares the raw ogrn fields without
cleaning; the matcher the spec describes selects the entry. -/
theorem ogrn_match_no_cleaning_cex :
    findTargetByOgrn [item_bang] "1234567890123" = none
  ∧ findTargetByOgrnSpec [item_bang] "1234567890123" = some item_bang
  ∧ clean_inn "!1234567890123" = "1234567890123" := by decide

/-- C3 amended: get_company_by_inn selects the first entry whose cleaned inn
equals the target and reports not-found when none matches;
get_company_by_ogrn selects the first entry whose raw ogrn or raw_ogrn field
equals the target exactly, with no cleaning, and reports not-found when none
matches; neither has a fuzzy fallback. -/
theorem candidate_matching_amended (results : List Item) (tInn tOgrn : String) :
    (findTargetByInn results tInn = none ↔
      ∀ it ∈ results, clean_inn (it.inn.getD "") ≠ tInn)
  ∧ (∀ it, findTargetByInn results tInn = some it →
      clean_inn (it.inn.getD "") = tInn ∧
      ∃ pre post, results = pre ++ it :: post ∧
        ∀ x ∈ pre, clean_inn (x.inn.getD "") ≠ tInn)
  ∧ (findTargetByOgrn results tOgrn = none ↔
      ∀ it ∈ results, it.ogrn ≠ some tOgrn ∧ it.raw_ogrn ≠ some tOgrn)
  ∧ (∀ it, findTargetByOgrn results tOgrn = some it →
      (it.ogrn = some tOgrn ∨ it.raw_ogrn = some tOgrn) ∧
      ∃ pre post, results = pre ++ it :: post ∧
        ∀ x ∈ pre, x.ogrn ≠ some tOgrn ∧ x.raw_ogrn ≠ some tOgrn) := by
  refine ⟨?_, ?_, ?_, ?_⟩
  · rw [findTargetByInn, List.find?_eq_none]
    constructor
    · intro h it hit
      have := h it hit
      simpa using this
    · intro h it hit
      simpa using h it hit
  · intro it hfind
    obtain ⟨hp, l1, l2, hsplit, hall⟩ := find_some_split _ results it hfind
    refine ⟨by simpa using hp, l1, l2, hsplit, ?_⟩
    intro x hx
    simpa using hall x hx
  · rw [findTargetByOgrn, List.find?_eq_none]
    constructor
    · intro h it hit
      have := h it hit
      simpa [not_or] using this
    · intro h it hit
      simpa [not_or] using h it hit
  · intro it hfind
    obtain ⟨hp, l1, l2, hsplit, hall⟩ := find_some_split _ results it hfind
    refine ⟨by simpa using hp, l1, l2, hsplit, ?_⟩
    intro x hx
    simpa [not_or] using hall x hx

/-- C3 witness: the inn matcher on a concrete list with a highlighted inn
picks the entry whose cleaned inn equals the target. -/
theorem candidate_matching_amended_w :
    clean_inn (item_seven.inn.getD "") = "7700000000" ∧
    ∃ pre post, [item_bang, item_seven] = pre ++ item_seven :: post ∧
      ∀ x ∈ pre, clean_inn (x.inn.getD "") ≠ "7700000000" :=
  (candidate_matching_amended [item_bang, item_seven] "7700000000" "z").2.1
    item_seven (by decide)

/-- The rule loop equals a fold of dict.update over the successful rules'
dicts, from any accumulator. -/
theorem run_rules_acc {Doc : Type} (doc : Doc) :
    ∀ (rules : List (Doc → Except String Extra)) (acc : Extra),
      rules.foldl (fun acc rule =>
        match rule doc with
        | Except.ok fields => dict_update acc fields
        | Except.error _ => acc) acc
      = (rules.filterMap (fun q => except_to_opt (q doc))).foldl dict_update acc := by
  intro rules
  induction rules with
  | nil => intro acc; rfl
  | cons r t ih =>
    intro acc
    cases hr : r doc with
    | ok m => simp [List.foldl_cons, List.filterMap_cons, hr, except_to_opt, ih]
    | error e => simp [List.foldl_cons, List.filterMap_cons, hr, except_to_opt, ih]

/-- C6: extraction-failure isolation: a rule that raises contributes no
fields and does not disturb the rules around it, and the loop's result is
the dict.update fold of exactly the successful rules' field dicts. -/
theorem extraction_failure_isolated {Doc : Type}
    (rules1 rules2 : List (Doc → Except String Extra))
    (r : Doc → Except String Extra) (doc : Doc) (e : String)
    (hr : r doc = Except.error e) :
    run_rules (rules1 ++ r :: rules2) doc = run_rules (rules1 ++ rules2) doc
  ∧ run_rules (rules1 ++ r :: rules2) doc
      = union_all ((rules1 ++ r :: rules2).filterMap (fun q => except_to_opt (q doc))) := by
  constructor
  · simp [run_rules, List.foldl_append, List.foldl_cons, hr]
  · rw [run_rules, union_all, run_rules_acc]

/-- C6 witness: a failing rule next to a successful one leaves the loop's
result equal to running the successful rule alone. -/
theorem extraction_failure_isolated_w :
    run_rules [rule_ok_example, rule_fail_example] () = run_rules [rule_ok_example] () :=
  (extraction_failure_isolated [rule_ok_example] [] rule_fail_example ()
    "unexpected markup" rfl).1

/-- Without interleaving the gate is correct: when the second pass reads the
time the first pass recorded, its permitted start is at least delay after
the first permitted start.  The violation below therefore comes precisely
from the unlocked concurrent read of the shared timestamp. -/
theorem throttle_sequential_spacing (last now1 now2 delay : ℚ) :
    delay ≤ throttle_pass (throttle_pass last now1 delay) now2 delay
      - throttle_pass last now1 delay := by
  set p1 := throttle_pass last now1 delay with hp1
  simp only [throttle_pass]
  by_cases h : 0 < delay - (now2 - p1)
  · rw [if_pos h]
    linarith
  · rw [if_neg h]
    push_neg at h
    linarith

/-- C7: evaluation of the throttle gate at the failing interleaving: two
concurrent callers both read the recorded time 0 at clock 1 with delay 5/2;
both are permitted at 5/2, so the second permitted start comes 0 seconds
after the first, strictly less than the delay. -/
theorem throttle_race_eval :
    (concurrent_permits 0 1 1 (5/2)).1 = 5/2
  ∧ (concurrent_permits 0 1 1 (5/2)).2 - (concurrent_permits 0 1 1 (5/2)).1 = 0
  ∧ (0 : ℚ) < 5/2 := by
  refine ⟨?_, ?_, by norm_num⟩ <;> norm_num [concurrent_permits, throttle_pass]

/-- The tile fold is empty exactly when the accumulator started empty and no
listed tile is present. -/
theorem sections_fold_gen (lookup : String → Option Tile) :
    ∀ (pairs : List (String × String)) (acc : List (String × SectionEntry)),
      (pairs.foldl (fun a p =>
        match lookup p.1 with
        | none => a
        | some t => a ++ [(p.2, parse_section_tile t)]) acc) = []
      ↔ (acc = [] ∧ ∀ p ∈ pairs, lookup p.1 = none) := by
  intro pairs
  induction pairs with
  | nil => intro acc; simp
  | cons p ps ih =>
    intro acc
    cases hl : lookup p.1 with
    | none => simp [List.foldl_cons, hl, ih, List.forall_mem_cons]
    | some t => simp [List.foldl_cons, hl, ih, List.forall_mem_cons]

/-- C8: sections overview shape: a tile carrying a no-data marker yields
exists False with no count and no sum; otherwise exists True with the count
of the first bare-integer link and the sum of the amount pattern when they
match; the overall mapping is present exactly when some tile was found. -/
theorem sections_overview_shape :
    (∀ t : Tile, marker_found t = true →
      parse_section_tile t = { exists_ := false, count := none, sum := none })
  ∧ (∀ t : Tile, marker_found t = false →
      (parse_section_tile t).exists_ = true
      ∧ (parse_section_tile t).count
          = (t.linkTexts.find? py_isdigit).map py_int_of_digits
      ∧ (parse_section_tile t).sum = search_sum t.text)
  ∧ (∀ lookup : String → Option Tile,
      parse_sections lookup = none ↔ ∀ p ∈ section_tiles, lookup p.1 = none) := by
  refine ⟨?_, ?_, ?_⟩
  · intro t ht
    simp [parse_section_tile, ht]
  · intro t ht
    simp [parse_section_tile, ht]
  · intro lookup
    have hfold : sections_fold lookup = [] ↔ ∀ p ∈ section_tiles, lookup p.1 = none := by
      rw [sections_fold, sections_fold_gen]
      simp
    constructor
    · intro h
      rw [parse_sections] at h
      by_cases hS : (sections_fold lookup).isEmpty
      · exact hfold.mp (List.isEmpty_iff.mp hS)
      · rw [if_neg hS] at h
        simp at h
    · intro h
      rw [parse_sections, hfold.mpr h]
      rfl

/-- C8 witness: a tile whose text carries a no-data marker yields the bare
exists-False entry. -/
theorem sections_overview_shape_w :
    parse_section_tile tile_no_data = { exists_ := false, count := none, sum := none } :=
  sections_overview_shape.1 tile_no_data (by decide)

/-- The inn validation guard accepts exactly the all-digit strings of length
10 or 12. -/
theorem valid_inn_format_iff (s : String) :
    valid_inn_format s = true ↔
      ((∀ c ∈ s.data, c.isDigit = true) ∧ (s.length = 10 ∨ s.length = 12)) := by
  have hlen : s.length = s.data.length := rfl
  rw [valid_inn_format, py_isdigit, Bool.and_eq_true, Bool.and_eq_true, Bool.or_eq_true]
  simp only [beq_iff_eq, List.all_eq_true, Bool.not_eq_true', List.isEmpty_eq_false]
  constructor
  · rintro ⟨⟨-, h⟩, hl⟩
    exact ⟨h, hl⟩
  · rintro ⟨h, hl⟩
    refine ⟨⟨?_, h⟩, hl⟩
    intro hnil
    rw [hlen, hnil] at hl
    simp at hl

/-- The ogrn validation guard accepts exactly the all-digit strings of
length 13 or 15. -/
theorem valid_ogrn_format_iff (s : String) :
    valid_ogrn_format s = true ↔
      ((∀ c ∈ s.data, c.isDigit = true) ∧ (s.length = 13 ∨ s.length = 15)) := by
  have hlen : s.length = s.data.length := rfl
  rw [valid_ogrn_format, py_isdigit, Bool.and_eq_true, Bool.and_eq_true, Bool.or_eq_true]
  simp only [beq_iff_eq, List.all_eq_true, Bool.not_eq_true', List.isEmpty_eq_false]
  constructor
  · rintro ⟨⟨-, h⟩, hl⟩
    exact ⟨h, hl⟩
  · rintro ⟨h, hl⟩
    refine ⟨⟨?_, h⟩, hl⟩
    intro hnil
    rw [hlen, hnil] at hl
    simp at hl

/-- Past validation, the inn endpoint never answers 400. -/
theorem inn_route_body_ne_bad (pool : Bool) (db : String → Option Row)
    (now ttl : Int) (pipe : String → Option Company) (inn : String) (force : Bool) :
    (inn_route_body pool db now ttl pipe inn force).outcome ≠ ApiOutcome.badRequest := by
  rw [inn_route_body]
  cases (if force then none else get_cached pool db now ttl inn) with
  | some c => simp
  | none => cases pipe inn <;> simp

/-- Past validation, the ogrn endpoint never answers 400. -/
theorem ogrn_route_body_ne_bad (pool : Bool) (dbO : String → Option Row)
    (now ttl : Int) (pipeO : String → Option Company) (ogrn : String) (force : Bool) :
    (ogrn_route_body pool dbO now ttl pipeO ogrn force).outcome ≠ ApiOutcome.badRequest := by
  rw [ogrn_route_body]
  cases (if force then none else get_cached_by_ogrn pool dbO now ttl ogrn) with
  | some c => simp
  | none => cases pipeO ogrn <;> simp

/-- C4: identifier validation: the inn endpoint proceeds past validation
exactly for all-digit strings of length 10 or 12 and the ogrn endpoint
exactly for all-digit strings of length 13 or 15; every other string gets a
400 with no cache read and no upstream access. -/
theorem id_format_validation (pool : Bool) (db dbO : String → Option Row)
    (now ttl : Int) (pipe pipeO : String → Option Company) (s : String)
    (force : Bool) :
    ((company_by_inn_route pool db now ttl pipe s force).outcome ≠ ApiOutcome.badRequest
      ↔ ((∀ c ∈ s.data, c.isDigit = true) ∧ (s.length = 10 ∨ s.length = 12)))
  ∧ ((company_by_inn_route pool db now ttl pipe s force).outcome = ApiOutcome.badRequest →
      company_by_inn_route pool db now ttl pipe s force =
        { outcome := ApiOutcome.badRequest, cacheRead := false, upstream := false, saved := none })
  ∧ ((company_by_ogrn_route pool dbO now ttl pipeO s force).outcome ≠ ApiOutcome.badRequest
      ↔ ((∀ c ∈ s.data, c.isDigit = true) ∧ (s.length = 13 ∨ s.length = 15)))
  ∧ ((company_by_ogrn_route pool dbO now ttl pipeO s force).outcome = ApiOutcome.badRequest →
      company_by_ogrn_route pool dbO now ttl pipeO s force =
        { outcome := ApiOutcome.badRequest, cacheRead := false, upstream := false, saved := none }) := by
  refine ⟨?_, ?_, ?_, ?_⟩
  · by_cases hv : valid_inn_format s = true
    · rw [company_by_inn_route, if_pos hv]
      exact iff_of_true (inn_route_body_ne_bad pool db now ttl pipe s force)
        ((valid_inn_format_iff s).mp hv)
    · rw [company_by_inn_route, if_neg hv]
      apply iff_of_false
      · simp
      · intro hp
        exact hv ((valid_inn_format_iff s).mpr hp)
  · by_cases hv : valid_inn_format s = true
    · rw [company_by_inn_route, if_pos hv]
      intro h
      exact absurd h (inn_route_body_ne_bad pool db now ttl pipe s force)
    · rw [company_by_inn_route, if_neg hv]
      intro _
      rfl
  · by_cases hv : valid_ogrn_format s = true
    · rw [company_by_ogrn_route, if_pos hv]
      exact iff_of_true (ogrn_route_body_ne_bad pool dbO now ttl pipeO s force)
        ((valid_ogrn_format_iff s).mp hv)
    · rw [company_by_ogrn_route, if_neg hv]
      apply iff_of_false
      · simp
      · intro hp
        exact hv ((valid_ogrn_format_iff s).mpr hp)
  · by_cases hv : valid_ogrn_format s = true
    · rw [company_by_ogrn_route, if_pos hv]
      intro h
      exact absurd h (ogrn_route_body_ne_bad pool dbO now ttl pipeO s force)
    · rw [company_by_ogrn_route, if_neg hv]
      intro _
      rfl

/-- C4 witness: a string with a letter is rejected with a 400, no cache read
and no upstream access. -/
theorem id_format_validation_w :
    company_by_inn_route true db_empty 0 24 pipe_empty "12ab456789" false =
      { outcome := ApiOutcome.badRequest, cacheRead := false, upstream := false, saved := none } := by
  have h := id_format_validation true db_empty db_empty 0 24 pipe_empty pipe_empty
    "12ab456789" false
  have hnp : ¬((∀ c ∈ ("12ab456789" : String).data, c.isDigit = true)
      ∧ (("12ab456789" : String).length = 10 ∨ ("12ab456789" : String).length = 12)) := by
    decide
  have hbad : (company_by_inn_route true db_empty 0 24 pipe_empty "12ab456789" false).outcome
      = ApiOutcome.badRequest := by
    by_contra hne
    exact hnp (h.1.mp hne)
  exact h.2.1 hbad

/-- C9: cache policy: with force False a row within the TTL is returned
directly, marked cached, with no upstream call; a row older than the TTL
behaves as a miss and the upstream runs; with force True the cache is not
read, the upstream always runs, and a fetched record is written back. -/
theorem cache_policy (db : String → Option Row) (now ttl : Int)
    (pipe : String → Option Company) (inn : String)
    (hv : valid_inn_format inn = true) :
    (∀ row, db inn = some row → now - row.updated_at ≤ ttl →
        company_by_inn_route true db now ttl pipe inn false =
          { outcome := ApiOutcome.ok (row_to_company row), cacheRead := true,
            upstream := false, saved := none }
      ∧ row_to_company row FieldName.cached = some (Val.vbool true))
  ∧ (∀ row, db inn = some row → ttl < now - row.updated_at →
      (company_by_inn_route true db now ttl pipe inn false).upstream = true)
  ∧ ((company_by_inn_route true db now ttl pipe inn true).cacheRead = false
    ∧ (company_by_inn_route true db now ttl pipe inn true).upstream = true
    ∧ ∀ c, pipe inn = some c →
        (company_by_inn_route true db now ttl pipe inn true).saved = some c) := by
  refine ⟨?_, ?_, ?_, ?_, ?_⟩
  · intro row hrow hfresh
    have h2 : ¬(ttl < now - row.updated_at) := not_lt.mpr hfresh
    constructor
    · rw [company_by_inn_route, if_pos hv, inn_route_body]
      simp [get_cached, hrow, h2]
    · rfl
  · intro row hrow hstale
    rw [company_by_inn_route, if_pos hv, inn_route_body]
    simp only [get_cached, hrow, if_pos hstale, Bool.not_true, Bool.false_eq_true,
      if_false]
    cases pipe inn <;> simp
  · rw [company_by_inn_route, if_pos hv, inn_route_body]
    cases pipe inn <;> simp
  · rw [company_by_inn_route, if_pos hv, inn_route_body]
    cases pipe inn <;> simp
  · intro c hc
    rw [company_by_inn_route, if_pos hv, inn_route_body]
    simp [hc]

/-- C9 witness: a row cached 5 units ago with TTL 24 is served from the
cache, marked cached, without contacting the upstream. -/
theorem cache_policy_w :
    company_by_inn_route true db_example 5 24 pipe_example "1234567890" false =
      { outcome := ApiOutcome.ok (row_to_company row_example), cacheRead := true,
        upstream := false, saved := none } :=
  ((cache_policy db_example 5 24 pipe_example "1234567890" (by decide)).1
    row_example (by simp [db_example]) (by decide)).1

/-- C10: identifier preservation: whenever the inn pipeline returns a
record, its inn equals the query, because the matched candidate's cleaned
inn equals the query, the base record is built from that cleaned inn, and no
extraction rule emits an inn key, so the merge leaves it unchanged. -/
theorem inn_preserved (fmt : String → String) (results : List Item) (q : String)
    (extra : Extra) (hsupp : ∀ f, (extra f).isSome = true → f ∈ extraction_keys)
    (c : Company) (hc : get_company_by_inn fmt results q extra = some c) :
    c FieldName.inn = some (Val.vstr q) := by
  rw [get_company_by_inn, findTargetByInn] at hc
  cases hfind : results.find? (fun item => clean_inn (item.inn.getD "") == q) with
  | none => rw [hfind] at hc; cases hc
  | some target =>
    rw [hfind] at hc
    dsimp only at hc
    have hq : clean_inn (target.inn.getD "") = q := by
      simpa using List.find?_some hfind
    have hinn_e : extra FieldName.inn = none := by
      cases hx : extra FieldName.inn with
      | none => rfl
      | some w =>
        have hmem : FieldName.inn ∈ extraction_keys := hsupp _ (by rw [hx]; rfl)
        exact absurd hmem (by decide)
    cases hurl : pyOrStr target.url none with
    | none =>
      rw [hurl] at hc
      injection hc with hc'
      subst hc'
      simp [parse_ajax_item, hq]
    | some u =>
      rw [hurl] at hc
      injection hc with hc'
      subst hc'
      simp [apply_extra, hinn_e, parse_ajax_item, hq]

/-- C10 witness: the pipeline on a concrete candidate list returns a record
whose inn equals the query. -/
theorem inn_preserved_w :
    apply_extra (parse_ajax_item id item_seven) empty_extra FieldName.inn
      = some (Val.vstr "7700000000") :=
  inn_preserved id [item_seven] "7700000000" empty_extra
    (fun f h => absurd h (by simp [empty_extra]))
    (apply_extra (parse_ajax_item id item_seven) empty_extra) rfl

